import Mathlib

/-!
Shallow embedding of `src/mcp-nextflow.py` (an MCP server exposing build /
test / run tools for a Nextflow checkout).

Strings are modeled as `List Char`.  File system interaction is modeled
explicitly: the Makefile that `get_makefile_targets` reads is a `FileState`
(absent, unreadable, or present with contents), and subprocess execution is
modeled by an `Invocation` record `(returncode, stdout, stderr)` supplied as
an argument, since `subprocess.run(..., capture_output=True, text=True)`
returns exactly these three observables.

The regex `^([a-zA-Z0-9_-]+):\s*(?:#.*)?$` applied with `re.MULTILINE` and
`re.findall` is embedded per line: in MULTILINE mode `^` matches only at the
start of the string or just after a `'\n'`, and `$` only at the end of the
string or just before a `'\n'`, so every match starts at a line start and
ends at a line end.  Greedy `\s*` may swallow whitespace-only continuation
lines, but a match can never end inside, nor consume any character of, a
line that starts with a name character (such characters are not whitespace
and `$` cannot hold before them), so `findall` yields, in order, one group-1
capture per line matching the pattern within that line.  Per line the
pattern reads: a maximal nonempty run of `[a-zA-Z0-9_-]`, then `':'`, then
whitespace, then optionally `'#'` followed by the rest of the line.
-/

/-- Characters of the regex class `[a-zA-Z0-9_-]`. -/
def isTargetChar (c : Char) : Bool :=
  (97 ≤ c.toNat && c.toNat ≤ 122) || (65 ≤ c.toNat && c.toNat ≤ 90) ||
    (48 ≤ c.toNat && c.toNat ≤ 57) || c.toNat == 95 || c.toNat == 45

/-- Characters matched by Python's `\s` on `str` patterns (Unicode mode):
ASCII whitespace, the C1 information separators, NEL, and the Unicode
space/line/paragraph separators. -/
def isPySpace (c : Char) : Bool :=
  c.toNat == 32 || (9 ≤ c.toNat && c.toNat ≤ 13) ||
    (28 ≤ c.toNat && c.toNat ≤ 31) || c.toNat == 133 || c.toNat == 160 ||
    c.toNat == 5760 || (8192 ≤ c.toNat && c.toNat ≤ 8202) ||
    c.toNat == 8232 || c.toNat == 8233 || c.toNat == 8239 ||
    c.toNat == 8287 || c.toNat == 12288

/-- Line segmentation at `'\n'`, as `re.MULTILINE` anchors induce
(`"a\nb"` gives two segments, a trailing `'\n'` yields a final empty one). -/
def splitLines : List Char → List (List Char)
  | [] => [[]]
  | c :: rest =>
    if c = '\n' then [] :: splitLines rest
    else
      match splitLines rest with
      | [] => [[c]]
      | line :: lines => (c :: line) :: lines

/-- The tail of the line pattern, `\s*(?:#.*)?$`, on the remainder of a
line after the colon: whitespace characters up to either the end of the
line or a `'#'` (after which `.*` matches everything). -/
def restMatches : List Char → Bool
  | [] => true
  | c :: cs => c == '#' || (isPySpace c && restMatches cs)

/-- One line against `^([a-zA-Z0-9_-]+):\s*(?:#.*)?$`: the group-1 capture
if the line matches, else `none`.  The `+` is greedy and `':'` is not a
name character, so the capture is exactly the maximal prefix of name
characters. -/
def lineTarget (line : List Char) : Option (List Char) :=
  if (line.takeWhile isTargetChar).isEmpty then none
  else if (line.dropWhile isTargetChar).head? = some ':' ∧
      restMatches (line.dropWhile isTargetChar).tail = true then
    some (line.takeWhile isTargetChar)
  else none

/-- `get_makefile_targets`, given the Makefile's contents: the list (in
line order, duplicates kept) that `re.findall(target_pattern, content,
re.MULTILINE)` produces. -/
def get_makefile_targets (content : List Char) : List (List Char) :=
  (splitLines content).filterMap lineTarget

/-- The observable state of the Makefile at `NEXTFLOW_DIR/Makefile`:
missing (`os.path.isfile` is false), present but failing to read (the
`except` branch), or readable with the given contents. -/
inductive FileState where
  | absent
  | unreadable
  | present (content : List Char)
deriving DecidableEq

/-- `get_makefile_targets` including its guard and exception handler:
a missing file returns `[]`, any error while reading or parsing returns
`[]`, otherwise the parse of the contents. -/
def get_makefile_targets_io : FileState → List (List Char)
  | .absent => []
  | .unreadable => []
  | .present content => get_makefile_targets content

/-- Python string `<=`: lexicographic comparison by code point. -/
def lexLe : List Char → List Char → Bool
  | [], _ => true
  | _ :: _, [] => false
  | c :: cs, d :: ds => if c = d then lexLe cs ds else decide (c < d)

/-- Insert into a lexicographically sorted list. -/
def lexInsert (x : List Char) : List (List Char) → List (List Char)
  | [] => [x]
  | y :: ys => if lexLe x y then x :: y :: ys else y :: lexInsert x ys

/-- Python's builtin `sorted` on a list of strings (ascending lexicographic;
stability is unobservable here because equal keys are identical strings). -/
def pySorted (l : List (List Char)) : List (List Char) :=
  l.foldr lexInsert []

/-- `"\n".join(...)`. -/
def joinNl : List (List Char) → List Char
  | [] => []
  | [x] => x
  | x :: y :: ys => x ++ '\n' :: joinNl (y :: ys)

/-- `"\n".join(f"- {target}" for target in sorted(targets))`. -/
def bulletList (targets : List (List Char)) : List Char :=
  joinNl ((pySorted targets).map (fun t => "- ".data ++ t))

/-- `needle` occurs verbatim as a contiguous substring of `hay`. -/
def containsSub (hay needle : List Char) : Bool :=
  needle.isPrefixOf hay ||
    match hay with
    | [] => false
    | _ :: t => containsSub t needle

/-- The observables of one `subprocess.run(..., capture_output=True,
text=True)` call: exit status, captured stdout, captured stderr. -/
structure Invocation where
  returncode : Int
  stdout : List Char
  stderr : List Char
deriving DecidableEq

/-- `str(int)` rendering used by f-string interpolation of the exit code. -/
def intStr (n : Int) : List Char := (toString n).data

/-- The fixed rejection text of `list_make_targets` for a given
`NEXTFLOW_DIR`. -/
def couldNotFindMsg (dir : List Char) : List Char :=
  "Could not find any make targets in ".data ++ dir ++
    "/Makefile. Please check if the Nextflow directory is set correctly.".data

/-- The fixed text `run_make_command` returns when discovery is empty. -/
def couldNotReadMsg (dir : List Char) : List Char :=
  "Could not read Makefile targets from ".data ++ dir ++
    "/Makefile. Please check if the Nextflow directory is set correctly.".data

/-- `list_make_targets`: the "could not find any" message when discovery
comes back empty, else the sorted bulleted listing. -/
def list_make_targets (dir : List Char) (fs : FileState) : List Char :=
  let targets := get_makefile_targets_io fs
  if targets.isEmpty then couldNotFindMsg dir
  else "Available make targets:\n".data ++ bulletList targets

/-- The abstract file system seen by `set_nextflow_directory`:
`os.path.expanduser`, `os.path.isdir`, `os.path.isfile`. -/
structure Fs where
  expanduser : List Char → List Char
  isdir : List Char → Bool
  isfile : List Char → Bool

/-- `os.path.join(a, b)` for the paths used here (no drive letters):
`b` if `b` is absolute, else `a ++ b` when `a` is empty or ends with the
separator, else `a ++ "/" ++ b`. -/
def pathJoin (a b : List Char) : List Char :=
  if b.head? = some '/' then b
  else if a = [] ∨ a.getLast? = some '/' then a ++ b
  else a ++ '/' :: b

/-- `set_nextflow_directory`: given the previous `NEXTFLOW_DIR`, returns
the new `NEXTFLOW_DIR` together with the returned message.  A nonexistent
directory is rejected without assignment; a directory lacking both
`Makefile` and `build.gradle` is assigned with a warning; otherwise it is
assigned with a confirmation. -/
def set_nextflow_directory (fs : Fs) (path : List Char) (dir : List Char) :
    List Char × List Char :=
  let expanded := fs.expanduser path
  if fs.isdir expanded = false then
    (dir, "Error: Directory '".data ++ expanded ++ "' does not exist.".data)
  else if !(fs.isfile (pathJoin expanded "Makefile".data) ||
      fs.isfile (pathJoin expanded "build.gradle".data)) then
    (expanded, "Warning: '".data ++ expanded ++
      "' might not be a Nextflow repository. Setting anyway.".data)
  else
    (expanded, "Nextflow directory set to: ".data ++ expanded)

/-- The error text of `run_make_command` for an invalid target name. -/
def invalidTargetMsg (command : List Char) (targets : List (List Char)) :
    List Char :=
  "Error: '".data ++ command ++
    "' is not a valid make target. Available targets are:\n".data ++
    bulletList targets

/-- Failure report of `run_make_command` for a nonzero exit. -/
def runMakeFailMsg (command : List Char) (p : Invocation) : List Char :=
  "Command 'make ".data ++ command ++ "' failed with exit code ".data ++
    intStr p.returncode ++ ":\nStdout: ".data ++ p.stdout ++
    "\nStderr: ".data ++ p.stderr

/-- The report `run_make_command` builds from the finished subprocess. -/
def run_make_command_report (command : List Char) (p : Invocation) :
    List Char :=
  if p.returncode ≠ 0 then runMakeFailMsg command p
  else "Command 'make ".data ++ command ++ "' succeeded:\n".data ++ p.stdout

/-- What `run_make_command` decided to do after its validation phase. -/
inductive MakeStep where
  | noTargets (msg : List Char)
  | invalid (msg : List Char)
  | run (target : List Char)
deriving DecidableEq

/-- The validation phase of `run_make_command`, everything before the
`subprocess.run` call: empty discovery aborts, a name outside the
discovered list aborts, otherwise the command is run. -/
def run_make_command_validate (dir : List Char) (fs : FileState)
    (command : List Char) : MakeStep :=
  let available := get_makefile_targets_io fs
  if available.isEmpty then .noTargets (couldNotReadMsg dir)
  else if command ∉ available then .invalid (invalidTargetMsg command available)
  else .run command

/-- Outcome of one `subprocess.run` call site under its `try`: either the
call returned (with exit status and captured streams) or it raised, with
`str(e)` of the exception. -/
inductive ProcOutcome where
  | ran (p : Invocation)
  | exn (e : List Char)
deriving DecidableEq

/-- `run_make_command` in full, as (did it spawn `make`?, returned text);
`o` is the outcome of the spawn when one happens. -/
def run_make_command_full (dir : List Char) (fs : FileState)
    (command : List Char) (o : ProcOutcome) : Bool × List Char :=
  match run_make_command_validate dir fs command with
  | .noTargets msg => (false, msg)
  | .invalid msg => (false, msg)
  | .run target =>
    (true, match o with
      | .ran p => run_make_command_report target p
      | .exn e => "Exception running make ".data ++ target ++ ": ".data ++ e)

/-- The report `run_specific_test` builds from the finished `./gradlew`
subprocess. -/
def run_specific_test_report (p : Invocation) : List Char :=
  if p.returncode ≠ 0 then
    "Test failed with exit code ".data ++ intStr p.returncode ++
      ":\nStdout: ".data ++ p.stdout ++ "\nStderr: ".data ++ p.stderr
  else "Test completed successfully:\n".data ++ p.stdout

/-- The error text of `build_nextflow` when neither `compile` nor `build`
is a discovered target. -/
def noBuildTargetMsg (targets : List (List Char)) : List Char :=
  "Error: Neither 'compile' nor 'build' targets found in Makefile. Available targets are:\n".data ++
    bulletList targets

/-- The report `build_nextflow` builds from the finished `make`
subprocess. -/
def build_nextflow_report (p : Invocation) : List Char :=
  if p.returncode ≠ 0 then
    "Build failed with exit code ".data ++ intStr p.returncode ++
      ":\nStdout: ".data ++ p.stdout ++ "\nStderr: ".data ++ p.stderr
  else "Build succeeded:\n".data ++ p.stdout

/-- What `build_nextflow` chose to run. -/
inductive BuildChoice where
  | target (t : List Char)
  | absent (msg : List Char)
deriving DecidableEq

/-- The target-selection phase of `build_nextflow`: `build_target` starts
as `"compile"`; if that is not among the discovered targets it falls back
to `"build"` when available, else the operation aborts with an error
listing the discovered targets. -/
def build_nextflow_select (targets : List (List Char)) : BuildChoice :=
  let build_target := "compile".data
  if build_target ∉ targets then
    if "build".data ∈ targets then .target "build".data
    else .absent (noBuildTargetMsg targets)
  else .target build_target

/-- `build_nextflow` in full, as (did it spawn `make`?, returned text). -/
def build_nextflow_full (fs : FileState) (o : ProcOutcome) :
    Bool × List Char :=
  match build_nextflow_select (get_makefile_targets_io fs) with
  | .target _ =>
    (true, match o with
      | .ran p => build_nextflow_report p
      | .exn e => "Exception during build: ".data ++ e)
  | .absent msg => (false, msg)

/-- The report `run_integration_tests` builds from the finished
`make test` subprocess. -/
def run_integration_tests_report (p : Invocation) : List Char :=
  if p.returncode ≠ 0 then
    "Integration tests failed with exit code ".data ++ intStr p.returncode ++
      ":\nStdout: ".data ++ p.stdout ++ "\nStderr: ".data ++ p.stderr
  else "Integration tests completed:\n".data ++ p.stdout

/-- Python `str.strip()`: drop leading and trailing whitespace. -/
def pyStrip (s : List Char) : List Char :=
  ((s.dropWhile isPySpace).reverse.dropWhile isPySpace).reverse

/-- The report `get_nextflow_version` builds from the finished
`./nextflow -version` subprocess.  Note its failure text interpolates only
the exit code and stderr. -/
def get_nextflow_version_report (p : Invocation) : List Char :=
  if p.returncode ≠ 0 then
    "Error getting version. Exit code ".data ++ intStr p.returncode ++
      ": ".data ++ p.stderr
  else pyStrip p.stdout

/-- The report `run_plugin_test` builds from the finished `make test
module=... [class=...]` subprocess. -/
def run_plugin_test_report (p : Invocation) : List Char :=
  if p.returncode ≠ 0 then
    "Plugin test failed with exit code ".data ++ intStr p.returncode ++
      ":\nStdout: ".data ++ p.stdout ++ "\nStderr: ".data ++ p.stderr
  else "Plugin test completed successfully:\n".data ++ p.stdout

/-- The pre-run compilation failure text of `run_development_nextflow`. -/
def devCompileFailMsg (p : Invocation) : List Char :=
  "Failed to compile Nextflow before running:\nExit code: ".data ++
    intStr p.returncode ++ "\nStdout: ".data ++ p.stdout ++
    "\nStderr: ".data ++ p.stderr

/-- The report `run_development_nextflow` builds from the finished
`./launch.sh` subprocess. -/
def run_development_nextflow_report (p : Invocation) : List Char :=
  if p.returncode ≠ 0 then
    "Development Nextflow execution failed with exit code ".data ++
      intStr p.returncode ++ ":\nStdout: ".data ++ p.stdout ++
      "\nStderr: ".data ++ p.stderr
  else "Development Nextflow execution succeeded:\n".data ++ p.stdout

/-- `run_development_nextflow` as (did it execute `./launch.sh`?, returned
text).  `launchExists` is `os.path.isfile` on `launch.sh`; `compileOut` is
the outcome of the `make compile` spawn when one happens; `launchOut` the
outcome of the `./launch.sh` spawn when one happens. -/
def run_development_nextflow_full (dir : List Char) (launchExists : Bool)
    (fs : FileState) (compileOut : ProcOutcome) (launchOut : ProcOutcome) :
    Bool × List Char :=
  let runLaunch : Bool × List Char :=
    (true, match launchOut with
      | .ran p => run_development_nextflow_report p
      | .exn e => "Exception during Nextflow execution: ".data ++ e)
  if launchExists = false then
    (false, "Error: launch.sh script not found at ".data ++
      pathJoin dir "launch.sh".data ++
      ". Make sure the Nextflow directory is correct.".data)
  else if "compile".data ∈ get_makefile_targets_io fs then
    match compileOut with
    | .ran p =>
      if p.returncode ≠ 0 then (false, devCompileFailMsg p)
      else runLaunch
    | .exn e => (false, "Exception during compilation: ".data ++ e)
  else runLaunch

/-- Spec-side reading of the discovery guarantee, literal: the line, in its
entirety after removal of an optional trailing comment (a `'#'` and
everything following it), equals `<name>:`, with `<name>` one or more
characters from `[A-Za-z0-9_-]`. -/
def specDeclaresLiteral (line name : List Char) : Bool :=
  !name.isEmpty && name.all isTargetChar &&
    (line == name ++ [':'] || (name ++ [':', '#']).isPrefixOf line)

/-- Spec-side reading of the discovery guarantee, amended: the line is
`<name>:` followed by optional whitespace and then an optional trailing
comment (a `'#'` and everything following it, to the end of the line). -/
def specDeclares (line name : List Char) : Bool :=
  !name.isEmpty && name.all isTargetChar &&
    (name ++ [':']).isPrefixOf line &&
    (((line.drop (name.length + 1)).dropWhile isPySpace).isEmpty ||
      ((line.drop (name.length + 1)).dropWhile isPySpace).head? == some '#')

theorem isPrefixOf_eq_true (a b : List Char) :
    a.isPrefixOf b = true ↔ ∃ t, b = a ++ t := by
  induction a generalizing b with
  | nil => simp [List.isPrefixOf]
  | cons c cs ih =>
    cases b with
    | nil =>
      simp only [List.isPrefixOf, List.cons_append]
      constructor
      · intro h; cases h
      · rintro ⟨t, ht⟩; cases ht
    | cons d ds =>
      simp only [List.isPrefixOf, Bool.and_eq_true, beq_iff_eq, ih,
        List.cons_append]
      constructor
      · rintro ⟨rfl, t, rfl⟩; exact ⟨t, rfl⟩
      · rintro ⟨t, ht⟩
        injection ht with h1 h2
        exact ⟨h1.symm, t, h2⟩

theorem takeWhile_name_append (name rest : List Char)
    (h : name.all isTargetChar = true) :
    (name ++ ':' :: rest).takeWhile isTargetChar = name ∧
      (name ++ ':' :: rest).dropWhile isTargetChar = ':' :: rest := by
  induction name with
  | nil =>
    have h1 : isTargetChar ':' = false := by decide
    simp [List.takeWhile_cons, List.dropWhile_cons, h1]
  | cons c cs ih =>
    simp only [List.all_cons, Bool.and_eq_true] at h
    obtain ⟨ih1, ih2⟩ := ih h.2
    refine ⟨?_, ?_⟩
    · simp [List.takeWhile_cons, h.1, ih1]
    · simp [List.dropWhile_cons, h.1, ih2]

theorem restMatches_iff (l : List Char) :
    restMatches l = true ↔
      (((l.dropWhile isPySpace).isEmpty ||
        (l.dropWhile isPySpace).head? == some '#') = true) := by
  induction l with
  | nil => simp [restMatches]
  | cons c cs ih =>
    by_cases hsp : isPySpace c = true
    · have hch : (c == '#') = false := by
        cases hc : (c == '#')
        · rfl
        · rw [beq_iff_eq] at hc; subst hc; cases hsp
      rw [List.dropWhile_cons_of_pos hsp]
      simp only [restMatches, hch, Bool.false_or, hsp, Bool.true_and]
      exact ih
    · have hsp' : isPySpace c = false := by
        cases h : isPySpace c
        · rfl
        · exact absurd h hsp
      rw [List.dropWhile_cons_of_neg (by simp [hsp'])]
      simp [restMatches, hsp']

/-- `lineTarget` characterized structurally: the line is the name, a colon,
and a matching remainder. -/
theorem lineTarget_eq_some (line name : List Char) :
    lineTarget line = some name ↔
      name ≠ [] ∧ name.all isTargetChar = true ∧
        ∃ tail, line = name ++ ':' :: tail ∧ restMatches tail = true := by
  constructor
  · intro h
    unfold lineTarget at h
    by_cases h1 : (line.takeWhile isTargetChar).isEmpty = true
    · rw [if_pos h1] at h; cases h
    · rw [if_neg h1] at h
      by_cases h2 : (line.dropWhile isTargetChar).head? = some ':' ∧
          restMatches (line.dropWhile isTargetChar).tail = true
      · rw [if_pos h2] at h
        injection h with h
        subst h
        rcases hd : line.dropWhile isTargetChar with _ | ⟨c, tail⟩
        · rw [hd] at h2; simp at h2
        · rw [hd] at h2
          have hc : c = ':' := by simpa using h2.1
          subst hc
          refine ⟨?_, List.all_takeWhile, tail, ?_, h2.2⟩
          · intro hnil
            rw [hnil] at h1
            simp at h1
          · conv_lhs => rw [← List.takeWhile_append_dropWhile isTargetChar line]
            rw [hd]
      · rw [if_neg h2] at h; cases h
  · rintro ⟨hne, hall, tail, rfl, hrest⟩
    obtain ⟨htk, hdp⟩ := takeWhile_name_append name tail hall
    have hemp : name.isEmpty = false := by
      cases name
      · exact absurd rfl hne
      · rfl
    unfold lineTarget
    rw [htk, hdp, hemp]
    simp [hrest]

/-- The amended spec predicate agrees with the structural
characterization. -/
theorem specDeclares_iff (line name : List Char) :
    specDeclares line name = true ↔
      name ≠ [] ∧ name.all isTargetChar = true ∧
        ∃ tail, line = name ++ ':' :: tail ∧ restMatches tail = true := by
  unfold specDeclares
  simp only [Bool.and_eq_true, Bool.not_eq_true']
  constructor
  · rintro ⟨⟨⟨hne, hall⟩, hpre⟩, htail⟩
    obtain ⟨t, ht⟩ := (isPrefixOf_eq_true _ _).mp hpre
    have hlen : (name ++ [':']).length = name.length + 1 := by simp
    have hdrop : line.drop (name.length + 1) = t := by
      rw [ht, ← hlen, List.drop_left]
    refine ⟨?_, hall, t, ?_, ?_⟩
    · intro hnil; rw [hnil] at hne; cases hne
    · rw [ht]; simp
    · rw [hdrop] at htail
      exact (restMatches_iff t).mpr htail
  · rintro ⟨hne, hall, tail, rfl, hrest⟩
    have hemp : name.isEmpty = false := by
      cases name
      · exact absurd rfl hne
      · rfl
    have hlen : (name ++ [':']).length = name.length + 1 := by simp
    have hsplit : name ++ ':' :: tail = (name ++ [':']) ++ tail := by simp
    refine ⟨⟨⟨hemp, hall⟩, ?_⟩, ?_⟩
    · exact (isPrefixOf_eq_true _ _).mpr ⟨tail, by simp⟩
    · rw [hsplit, ← hlen, List.drop_left]
      exact (restMatches_iff tail).mp hrest

/-- C1 (amended): a name appears in the result of target discovery iff
some line of the file is `<name>:` — one or more characters from
`[A-Za-z0-9_-]` then a colon — followed by optional whitespace and then an
optional trailing comment (`#` to end of line); in particular an
unindented line `foo:` yields `foo` and an indented `  foo:` does not. -/
theorem discovery_mem_iff (content name : List Char) :
    name ∈ get_makefile_targets content ↔
      ∃ line ∈ splitLines content, specDeclares line name = true := by
  unfold get_makefile_targets
  rw [List.mem_filterMap]
  constructor
  · rintro ⟨l, hl, he⟩
    exact ⟨l, hl, (specDeclares_iff l name).mpr ((lineTarget_eq_some l name).mp he)⟩
  · rintro ⟨l, hl, he⟩
    exact ⟨l, hl, (lineTarget_eq_some l name).mpr ((specDeclares_iff l name).mp he)⟩

/-- C1 fails as literally stated: on the file `"foo: "` (a trailing space,
no comment) discovery yields `foo`, yet no line of that file equals
`foo:` in its entirety after removal of an optional trailing comment. -/
theorem discovery_literal_counterexample :
    "foo".data ∈ get_makefile_targets "foo: ".data ∧
      ∀ line ∈ splitLines "foo: ".data,
        specDeclaresLiteral line "foo".data = false := by
  decide

theorem count_filterMap {α β : Type} [BEq β] [LawfulBEq β] [DecidableEq β]
    (f : α → Option β) (l : List α) (b : β) :
    (l.filterMap f).count b =
      (l.filter (fun a => decide (f a = some b))).length := by
  induction l with
  | nil => rfl
  | cons a l ih =>
    rw [List.filterMap_cons]
    rcases hf : f a with _ | c
    · simp [List.filter_cons, hf, ih]
    · by_cases hc : c = b
      · subst hc
        simp [List.filter_cons, hf, List.count_cons, ih]
      · simp [List.filter_cons, hf, List.count_cons, hc, ih]

/-- C2 (amended): the collection returned by target discovery is a list,
not a set — a name occurs in it exactly as many times as there are lines
declaring it, so duplicate declaration lines yield duplicate entries. -/
theorem discovery_count_eq_lines (content name : List Char) :
    (get_makefile_targets content).count name =
      ((splitLines content).filter
        (fun l => decide (lineTarget l = some name))).length := by
  unfold get_makefile_targets
  exact count_filterMap lineTarget (splitLines content) name

/-- C2 fails as stated: a file declaring `foo:` twice makes discovery
return `foo` twice — the result is not duplicate-free. -/
theorem discovery_nodup_counterexample :
    get_makefile_targets "foo:\nfoo:".data = ["foo".data, "foo".data] ∧
      ¬ (get_makefile_targets "foo:\nfoo:".data).Nodup := by
  decide

theorem isPrefixOf_append_self (a b : List Char) :
    a.isPrefixOf (a ++ b) = true :=
  (isPrefixOf_eq_true a (a ++ b)).mpr ⟨b, rfl⟩

theorem containsSub_head (n b : List Char) : containsSub (n ++ b) n = true := by
  unfold containsSub
  rw [isPrefixOf_append_self]
  simp

theorem containsSub_cons (c : Char) (hay n : List Char)
    (h : containsSub hay n = true) : containsSub (c :: hay) n = true := by
  unfold containsSub
  simp [h]

theorem containsSub_append (a hay n : List Char)
    (h : containsSub hay n = true) : containsSub (a ++ hay) n = true := by
  induction a with
  | nil => exact h
  | cons c a ih => exact containsSub_cons c (a ++ hay) n ih

theorem containsSub_self (n : List Char) : containsSub n n = true := by
  have h := containsSub_head n []
  rwa [List.append_nil] at h

theorem containsSub_std_msg (l1 l2 l3 rc out err : List Char) :
    containsSub (l1 ++ (rc ++ (l2 ++ (out ++ (l3 ++ err))))) rc = true ∧
    containsSub (l1 ++ (rc ++ (l2 ++ (out ++ (l3 ++ err))))) out = true ∧
    containsSub (l1 ++ (rc ++ (l2 ++ (out ++ (l3 ++ err))))) err = true := by
  refine ⟨?_, ?_, ?_⟩
  · exact containsSub_append _ _ _ (containsSub_head _ _)
  · apply containsSub_append
    apply containsSub_append
    apply containsSub_append
    exact containsSub_head _ _
  · apply containsSub_append
    apply containsSub_append
    apply containsSub_append
    apply containsSub_append
    apply containsSub_append
    exact containsSub_self _

theorem containsSub_make_msg (l1 cmd l2 l3 l4 rc out err : List Char) :
    containsSub (l1 ++ (cmd ++ (l2 ++ (rc ++ (l3 ++ (out ++ (l4 ++ err))))))) rc
        = true ∧
    containsSub (l1 ++ (cmd ++ (l2 ++ (rc ++ (l3 ++ (out ++ (l4 ++ err))))))) out
        = true ∧
    containsSub (l1 ++ (cmd ++ (l2 ++ (rc ++ (l3 ++ (out ++ (l4 ++ err))))))) err
        = true := by
  refine ⟨?_, ?_, ?_⟩
  · apply containsSub_append
    apply containsSub_append
    apply containsSub_append
    exact containsSub_head _ _
  · apply containsSub_append
    apply containsSub_append
    apply containsSub_append
    apply containsSub_append
    apply containsSub_append
    exact containsSub_head _ _
  · apply containsSub_append
    apply containsSub_append
    apply containsSub_append
    apply containsSub_append
    apply containsSub_append
    apply containsSub_append
    apply containsSub_append
    exact containsSub_self _

theorem containsSub_version_msg (l1 l2 rc err : List Char) :
    containsSub (l1 ++ (rc ++ (l2 ++ err))) rc = true ∧
    containsSub (l1 ++ (rc ++ (l2 ++ err))) err = true := by
  refine ⟨?_, ?_⟩
  · exact containsSub_append _ _ _ (containsSub_head _ _)
  · apply containsSub_append
    apply containsSub_append
    apply containsSub_append
    exact containsSub_self _

/-- C3 fails as stated: `get_nextflow_version`, one of the operations the
claim lists, reports a nonzero exit without the captured stdout — here
stdout is `OUT` and the report does not contain it. -/
theorem version_report_counterexample :
    (Invocation.mk 1 "OUT".data [] ).returncode ≠ 0 ∧
      containsSub (get_nextflow_version_report (Invocation.mk 1 "OUT".data [] ))
        "OUT".data = false := by
  decide

/-- C3 (amended): on a nonzero exit, the reports of `run_make_command`,
`run_specific_test`, `build_nextflow`, `run_integration_tests`,
`run_plugin_test` and `run_development_nextflow` each contain the exit
code, the captured stdout and the captured stderr verbatim; the report of
`get_nextflow_version` contains the exit code and the captured stderr
verbatim but not the captured stdout. -/
theorem failure_reports_verbatim (command : List Char) (p : Invocation)
    (h : p.returncode ≠ 0) :
    (containsSub (run_make_command_report command p) (intStr p.returncode) = true ∧
      containsSub (run_make_command_report command p) p.stdout = true ∧
      containsSub (run_make_command_report command p) p.stderr = true) ∧
    (containsSub (run_specific_test_report p) (intStr p.returncode) = true ∧
      containsSub (run_specific_test_report p) p.stdout = true ∧
      containsSub (run_specific_test_report p) p.stderr = true) ∧
    (containsSub (build_nextflow_report p) (intStr p.returncode) = true ∧
      containsSub (build_nextflow_report p) p.stdout = true ∧
      containsSub (build_nextflow_report p) p.stderr = true) ∧
    (containsSub (run_integration_tests_report p) (intStr p.returncode) = true ∧
      containsSub (run_integration_tests_report p) p.stdout = true ∧
      containsSub (run_integration_tests_report p) p.stderr = true) ∧
    (containsSub (run_plugin_test_report p) (intStr p.returncode) = true ∧
      containsSub (run_plugin_test_report p) p.stdout = true ∧
      containsSub (run_plugin_test_report p) p.stderr = true) ∧
    (containsSub (run_development_nextflow_report p) (intStr p.returncode) = true ∧
      containsSub (run_development_nextflow_report p) p.stdout = true ∧
      containsSub (run_development_nextflow_report p) p.stderr = true) ∧
    (containsSub (get_nextflow_version_report p) (intStr p.returncode) = true ∧
      containsSub (get_nextflow_version_report p) p.stderr = true) := by
  refine ⟨?_, ?_, ?_, ?_, ?_, ?_, ?_⟩
  · unfold run_make_command_report runMakeFailMsg
    rw [if_pos h]
    simp only [List.append_assoc]
    exact containsSub_make_msg _ _ _ _ _ _ _ _
  · unfold run_specific_test_report
    rw [if_pos h]
    simp only [List.append_assoc]
    exact containsSub_std_msg _ _ _ _ _ _
  · unfold build_nextflow_report
    rw [if_pos h]
    simp only [List.append_assoc]
    exact containsSub_std_msg _ _ _ _ _ _
  · unfold run_integration_tests_report
    rw [if_pos h]
    simp only [List.append_assoc]
    exact containsSub_std_msg _ _ _ _ _ _
  · unfold run_plugin_test_report
    rw [if_pos h]
    simp only [List.append_assoc]
    exact containsSub_std_msg _ _ _ _ _ _
  · unfold run_development_nextflow_report
    rw [if_pos h]
    simp only [List.append_assoc]
    exact containsSub_std_msg _ _ _ _ _ _
  · unfold get_nextflow_version_report
    rw [if_pos h]
    simp only [List.append_assoc]
    exact containsSub_version_msg _ _ _ _

/-- Witness instantiating `failure_reports_verbatim` at exit code 2,
stdout `o`, stderr `e`, command `clean`. -/
theorem failure_reports_verbatim_witness :
    (Invocation.mk 2 "o".data "e".data).returncode ≠ 0 ∧
    ((containsSub (run_make_command_report "clean".data
          (Invocation.mk 2 "o".data "e".data))
        (intStr (Invocation.mk 2 "o".data "e".data).returncode) = true ∧
      containsSub (run_make_command_report "clean".data
          (Invocation.mk 2 "o".data "e".data))
        (Invocation.mk 2 "o".data "e".data).stdout = true ∧
      containsSub (run_make_command_report "clean".data
          (Invocation.mk 2 "o".data "e".data))
        (Invocation.mk 2 "o".data "e".data).stderr = true) ∧
    (containsSub (run_specific_test_report (Invocation.mk 2 "o".data "e".data))
        (intStr (Invocation.mk 2 "o".data "e".data).returncode) = true ∧
      containsSub (run_specific_test_report (Invocation.mk 2 "o".data "e".data))
        (Invocation.mk 2 "o".data "e".data).stdout = true ∧
      containsSub (run_specific_test_report (Invocation.mk 2 "o".data "e".data))
        (Invocation.mk 2 "o".data "e".data).stderr = true) ∧
    (containsSub (build_nextflow_report (Invocation.mk 2 "o".data "e".data))
        (intStr (Invocation.mk 2 "o".data "e".data).returncode) = true ∧
      containsSub (build_nextflow_report (Invocation.mk 2 "o".data "e".data))
        (Invocation.mk 2 "o".data "e".data).stdout = true ∧
      containsSub (build_nextflow_report (Invocation.mk 2 "o".data "e".data))
        (Invocation.mk 2 "o".data "e".data).stderr = true) ∧
    (containsSub (run_integration_tests_report
          (Invocation.mk 2 "o".data "e".data))
        (intStr (Invocation.mk 2 "o".data "e".data).returncode) = true ∧
      containsSub (run_integration_tests_report
          (Invocation.mk 2 "o".data "e".data))
        (Invocation.mk 2 "o".data "e".data).stdout = true ∧
      containsSub (run_integration_tests_report
          (Invocation.mk 2 "o".data "e".data))
        (Invocation.mk 2 "o".data "e".data).stderr = true) ∧
    (containsSub (run_plugin_test_report (Invocation.mk 2 "o".data "e".data))
        (intStr (Invocation.mk 2 "o".data "e".data).returncode) = true ∧
      containsSub (run_plugin_test_report (Invocation.mk 2 "o".data "e".data))
        (Invocation.mk 2 "o".data "e".data).stdout = true ∧
      containsSub (run_plugin_test_report (Invocation.mk 2 "o".data "e".data))
        (Invocation.mk 2 "o".data "e".data).stderr = true) ∧
    (containsSub (run_development_nextflow_report
          (Invocation.mk 2 "o".data "e".data))
        (intStr (Invocation.mk 2 "o".data "e".data).returncode) = true ∧
      containsSub (run_development_nextflow_report
          (Invocation.mk 2 "o".data "e".data))
        (Invocation.mk 2 "o".data "e".data).stdout = true ∧
      containsSub (run_development_nextflow_report
          (Invocation.mk 2 "o".data "e".data))
        (Invocation.mk 2 "o".data "e".data).stderr = true) ∧
    (containsSub (get_nextflow_version_report (Invocation.mk 2 "o".data "e".data))
        (intStr (Invocation.mk 2 "o".data "e".data).returncode) = true ∧
      containsSub (get_nextflow_version_report (Invocation.mk 2 "o".data "e".data))
        (Invocation.mk 2 "o".data "e".data).stderr = true)) :=
  ⟨by decide,
    failure_reports_verbatim "clean".data
      (Invocation.mk 2 "o".data "e".data) (by decide)⟩

/-- The acceptance decision of `run_make_command`: `true` exactly when
validation passed and the `make` subprocess would be spawned. -/
def acceptsTarget (dir : List Char) (fs : FileState) (command : List Char) :
    Bool :=
  match run_make_command_validate dir fs command with
  | .run _ => true
  | .noTargets _ => false
  | .invalid _ => false

theorem validate_cases (dir : List Char) (fs : FileState)
    (command : List Char) :
    (get_makefile_targets_io fs = [] ∧
      run_make_command_validate dir fs command =
        .noTargets (couldNotReadMsg dir)) ∨
    (get_makefile_targets_io fs ≠ [] ∧
      command ∉ get_makefile_targets_io fs ∧
      run_make_command_validate dir fs command =
        .invalid (invalidTargetMsg command (get_makefile_targets_io fs))) ∨
    (command ∈ get_makefile_targets_io fs ∧
      run_make_command_validate dir fs command = .run command) := by
  by_cases he : (get_makefile_targets_io fs).isEmpty = true
  · left
    refine ⟨List.isEmpty_iff.mp he, ?_⟩
    simp only [run_make_command_validate]
    rw [if_pos he]
  · have hne : get_makefile_targets_io fs ≠ [] := by
      intro hh
      rw [hh] at he
      exact he rfl
    by_cases hm : command ∈ get_makefile_targets_io fs
    · right; right
      refine ⟨hm, ?_⟩
      simp only [run_make_command_validate]
      rw [if_neg he, if_neg (not_not_intro hm)]
    · right; left
      refine ⟨hne, hm, ?_⟩
      simp only [run_make_command_validate]
      rw [if_neg he, if_pos hm]

/-- C4: `run_make_command` accepts a command as valid exactly when it is a
member of the discovery result over the current file contents, and the
rejection message enumerates exactly that same discovery result. -/
theorem run_make_validation_iff (dir : List Char) (fs : FileState)
    (command : List Char) :
    (acceptsTarget dir fs command = true ↔
      command ∈ get_makefile_targets_io fs) ∧
    (∀ msg, run_make_command_validate dir fs command = .invalid msg →
      msg = invalidTargetMsg command (get_makefile_targets_io fs)) := by
  rcases validate_cases dir fs command with ⟨hemp, hv⟩ | ⟨hne, hnm, hv⟩ | ⟨hm, hv⟩
  · refine ⟨?_, ?_⟩
    · unfold acceptsTarget
      rw [hv]
      simp [hemp]
    · intro msg hmsg
      rw [hv] at hmsg
      cases hmsg
  · refine ⟨?_, ?_⟩
    · unfold acceptsTarget
      rw [hv]
      simp [hnm]
    · intro msg hmsg
      rw [hv] at hmsg
      injection hmsg with hh
      exact hh.symm
  · refine ⟨?_, ?_⟩
    · unfold acceptsTarget
      rw [hv]
      simp [hm]
    · intro msg hmsg
      rw [hv] at hmsg
      cases hmsg

/-- Witness instantiating `run_make_validation_iff`: on a Makefile
declaring only `foo`, requesting `bar` is rejected with the message
enumerating the discovered list `[foo]`. -/
theorem run_make_validation_iff_witness :
    invalidTargetMsg "bar".data ["foo".data] =
      invalidTargetMsg "bar".data
        (get_makefile_targets_io (.present "foo:".data)) :=
  (run_make_validation_iff "d".data (.present "foo:".data) "bar".data).2
    (invalidTargetMsg "bar".data ["foo".data]) (by decide)

/-- C5: `build_nextflow` selects `compile` when it is among the discovered
targets, else `build` when that is, else it spawns nothing and returns the
error enumerating all discovered targets. -/
theorem build_fallback_selection (fs : FileState) :
    ("compile".data ∈ get_makefile_targets_io fs →
      build_nextflow_select (get_makefile_targets_io fs) =
        .target "compile".data) ∧
    ("compile".data ∉ get_makefile_targets_io fs →
      "build".data ∈ get_makefile_targets_io fs →
      build_nextflow_select (get_makefile_targets_io fs) =
        .target "build".data) ∧
    ("compile".data ∉ get_makefile_targets_io fs →
      "build".data ∉ get_makefile_targets_io fs →
      ∀ o, build_nextflow_full fs o =
        (false, noBuildTargetMsg (get_makefile_targets_io fs))) := by
  refine ⟨?_, ?_, ?_⟩
  · intro h
    simp only [build_nextflow_select]
    rw [if_neg (not_not_intro h)]
  · intro h1 h2
    simp only [build_nextflow_select]
    rw [if_pos h1, if_pos h2]
  · intro h1 h2 o
    have hsel : build_nextflow_select (get_makefile_targets_io fs) =
        .absent (noBuildTargetMsg (get_makefile_targets_io fs)) := by
      simp only [build_nextflow_select]
      rw [if_pos h1, if_neg h2]
    unfold build_nextflow_full
    rw [hsel]

/-- Witness instantiating `build_fallback_selection` on all three
branches. -/
theorem build_fallback_selection_witness :
    build_nextflow_select (get_makefile_targets_io
        (.present "compile:\nbuild:".data)) = .target "compile".data ∧
    build_nextflow_select (get_makefile_targets_io
        (.present "build:".data)) = .target "build".data ∧
    build_nextflow_full (.present "lint:".data) (.ran (Invocation.mk 0 [] [] )) =
      (false, noBuildTargetMsg (get_makefile_targets_io
        (.present "lint:".data))) :=
  ⟨(build_fallback_selection (.present "compile:\nbuild:".data)).1 (by decide),
    (build_fallback_selection (.present "build:".data)).2.1
      (by decide) (by decide),
    (build_fallback_selection (.present "lint:".data)).2.2
      (by decide) (by decide) (.ran (Invocation.mk 0 [] [] ))⟩

/-- C6: a command outside the discovered set never spawns a subprocess —
validation strictly precedes execution; the returned text is one of the
two validation error texts. -/
theorem invalid_target_never_spawns (dir : List Char) (fs : FileState)
    (command : List Char) (o : ProcOutcome)
    (h : command ∉ get_makefile_targets_io fs) :
    (run_make_command_full dir fs command o).1 = false ∧
      ((run_make_command_full dir fs command o).2 = couldNotReadMsg dir ∨
        (run_make_command_full dir fs command o).2 =
          invalidTargetMsg command (get_makefile_targets_io fs)) := by
  rcases validate_cases dir fs command with ⟨hemp, hv⟩ | ⟨hne, hnm, hv⟩ | ⟨hm, hv⟩
  · unfold run_make_command_full
    rw [hv]
    exact ⟨rfl, Or.inl rfl⟩
  · unfold run_make_command_full
    rw [hv]
    exact ⟨rfl, Or.inr rfl⟩
  · exact absurd hm h

/-- Witness instantiating `invalid_target_never_spawns`: requesting `b`
against a Makefile declaring only `a`. -/
theorem invalid_target_never_spawns_witness :
    (run_make_command_full "d".data (.present "a:".data) "b".data
        (.ran (Invocation.mk 0 [] [] ))).1 = false ∧
      ((run_make_command_full "d".data (.present "a:".data) "b".data
          (.ran (Invocation.mk 0 [] [] ))).2 = couldNotReadMsg "d".data ∨
        (run_make_command_full "d".data (.present "a:".data) "b".data
            (.ran (Invocation.mk 0 [] [] ))).2 =
          invalidTargetMsg "b".data
            (get_makefile_targets_io (.present "a:".data))) :=
  invalid_target_never_spawns "d".data (.present "a:".data) "b".data
    (.ran (Invocation.mk 0 [] [] )) (by decide)

/-- C7: `set_nextflow_directory` on a path whose expansion is not an
existing directory returns the rejection text and leaves the configured
directory unchanged. -/
theorem set_directory_rejects_nonexistent (fs : Fs) (path dir : List Char)
    (h : fs.isdir (fs.expanduser path) = false) :
    set_nextflow_directory fs path dir =
      (dir, "Error: Directory '".data ++ fs.expanduser path ++
        "' does not exist.".data) := by
  simp only [set_nextflow_directory]
  rw [if_pos h]

/-- Witness instantiating `set_directory_rejects_nonexistent` on a file
system with no directories. -/
theorem set_directory_rejects_nonexistent_witness :
    set_nextflow_directory
        (Fs.mk (fun p => p) (fun _ => false) (fun _ => false))
        "/nope".data "/old".data =
      ("/old".data, "Error: Directory '".data ++
        (Fs.mk (fun p => p) (fun _ => false) (fun _ => false)).expanduser
          "/nope".data ++
        "' does not exist.".data) :=
  set_directory_rejects_nonexistent
    (Fs.mk (fun p => p) (fun _ => false) (fun _ => false))
    "/nope".data "/old".data rfl

/-- C8: target discovery is total towards its caller — a missing Makefile
and a failed read both yield the empty result. -/
theorem discovery_total_on_errors (fs : FileState)
    (h : fs = FileState.absent ∨ fs = FileState.unreadable) :
    get_makefile_targets_io fs = [] := by
  rcases h with rfl | rfl <;> rfl

/-- Witness instantiating `discovery_total_on_errors` at a missing
Makefile. -/
theorem discovery_total_on_errors_witness :
    get_makefile_targets_io FileState.absent = [] :=
  discovery_total_on_errors FileState.absent (Or.inl rfl)

/-- C9: when discovery is empty, `list_make_targets` returns the fixed
error text — which contains the phrase "Could not find any" — rather than
a listing. -/
theorem list_targets_empty_message (dir : List Char) (fs : FileState)
    (h : get_makefile_targets_io fs = []) :
    list_make_targets dir fs = couldNotFindMsg dir ∧
      containsSub (list_make_targets dir fs) "Could not find any".data
        = true := by
  have hmsg : list_make_targets dir fs = couldNotFindMsg dir := by
    simp [list_make_targets, h]
  refine ⟨hmsg, ?_⟩
  rw [hmsg]
  unfold couldNotFindMsg
  have hA : "Could not find any make targets in ".data =
      "Could not find any".data ++ " make targets in ".data := by decide
  rw [hA]
  simp only [List.append_assoc]
  exact containsSub_head _ _

/-- Witness instantiating `list_targets_empty_message` at a missing
Makefile. -/
theorem list_targets_empty_message_witness :
    list_make_targets "nxf".data FileState.absent =
        couldNotFindMsg "nxf".data ∧
      containsSub (list_make_targets "nxf".data FileState.absent)
        "Could not find any".data = true :=
  list_targets_empty_message "nxf".data FileState.absent rfl

/-- Whether a subprocess step failed, per the code's checks: nonzero exit
or a raised exception. -/
def procFailed : ProcOutcome → Bool
  | .ran p => decide (p.returncode ≠ 0)
  | .exn _ => true

/-- C10: in `run_development_nextflow`, when `compile` is among the
discovered targets and the pre-run compilation fails (nonzero exit or
exception), `./launch.sh` is not executed and the returned text is the
compilation failure text. -/
theorem dev_compile_failure_blocks_launch (dir : List Char) (fs : FileState)
    (co lo : ProcOutcome)
    (h1 : "compile".data ∈ get_makefile_targets_io fs)
    (h2 : procFailed co = true) :
    (run_development_nextflow_full dir true fs co lo).1 = false ∧
      (∀ p, co = .ran p →
        (run_development_nextflow_full dir true fs co lo).2 =
          devCompileFailMsg p) ∧
      (∀ e, co = .exn e →
        (run_development_nextflow_full dir true fs co lo).2 =
          "Exception during compilation: ".data ++ e) := by
  rcases co with p | e
  · have hrc : p.returncode ≠ 0 := by
      simpa [procFailed] using h2
    have key : run_development_nextflow_full dir true fs (.ran p) lo =
        (false, devCompileFailMsg p) := by
      simp only [run_development_nextflow_full]
      rw [if_neg (by simp), if_pos h1]
      simp [hrc]
    refine ⟨by rw [key], ?_, ?_⟩
    · rintro q hq
      injection hq with hq
      subst hq
      rw [key]
    · rintro e he
      cases he
  · have key : run_development_nextflow_full dir true fs (.exn e) lo =
        (false, "Exception during compilation: ".data ++ e) := by
      simp only [run_development_nextflow_full]
      rw [if_neg (by simp), if_pos h1]
    refine ⟨by rw [key], ?_, ?_⟩
    · rintro q hq
      cases hq
    · rintro f hf
      injection hf with hf
      subst hf
      rw [key]

/-- Witness instantiating `dev_compile_failure_blocks_launch` at a
compilation exiting with code 1. -/
theorem dev_compile_failure_blocks_launch_witness :
    (run_development_nextflow_full "d".data true (.present "compile:".data)
        (.ran (Invocation.mk 1 "o".data "e".data))
        (.ran (Invocation.mk 0 [] [] ))).1 = false ∧
      (run_development_nextflow_full "d".data true (.present "compile:".data)
          (.ran (Invocation.mk 1 "o".data "e".data))
          (.ran (Invocation.mk 0 [] [] ))).2 =
        devCompileFailMsg (Invocation.mk 1 "o".data "e".data) := by
  have h := dev_compile_failure_blocks_launch "d".data
    (.present "compile:".data) (.ran (Invocation.mk 1 "o".data "e".data))
    (.ran (Invocation.mk 0 [] [] )) (by decide) (by decide)
  exact ⟨h.1, h.2.1 (Invocation.mk 1 "o".data "e".data) rfl⟩
